import Mathlib

/-!
Verification of the Birks'-law quenching calculator and the SRIM text parser
(`physics.py`, `srim_parser.py`).

The parser is embedded as executable functions over `List Char` and `ℚ`
(Python floats are idealised as exact rationals).  The physics module is
embedded over `ℝ`: the adaptive quadrature `scipy.integrate.quad` is idealised
as the exact interval integral, and the root finder `scipy.optimize.brentq`
as a function returning a root of the objective on the bracket whenever one
exists.
-/

open MeasureTheory Set

/-! ## Generic insertion sort by a key (model of `sort_values('Energy_MeV')`) -/

/-- Insert `p` in front of the first element whose key is not smaller. -/
def orderedInsertKey {α β : Type} [LinearOrder β] (key : α → β) (p : α) :
    List α → List α
  | [] => [p]
  | q :: rest =>
    if key p ≤ key q then p :: q :: rest else q :: orderedInsertKey key p rest

/-- Insertion sort by a key; models `DataFrame.sort_values` (up to tie order,
which pandas' default quicksort leaves unspecified as well). -/
def sortByKey {α β : Type} [LinearOrder β] (key : α → β) : List α → List α
  | [] => []
  | p :: rest => orderedInsertKey key p (sortByKey key rest)

/-! ## SRIM parser (`srim_parser.py`) -/

/-- Error outcomes of `parse_srim_text` (each a `ValueError` in the source,
distinguished here by raise site). -/
inductive ParseErr
  | noDataSection
  | floatConversion
  | unknownUnit
  | noDataPoints
  deriving DecidableEq

/-- Python `str.strip()`: drop leading and trailing whitespace. -/
def trimChars (l : List Char) : List Char :=
  ((l.dropWhile Char.isWhitespace).reverse.dropWhile Char.isWhitespace).reverse

/-- Python `str.lower()` (ASCII case folding). -/
def toLowerChars (l : List Char) : List Char := l.map Char.toLower

/-- Python `str.split('\n')`. -/
def splitNewlines : List Char → List (List Char)
  | [] => [[]]
  | '\n' :: r => [] :: splitNewlines r
  | c :: r =>
    match splitNewlines r with
    | [] => [[c]]
    | l :: ls => (c :: l) :: ls

/-- Python `sub in s` substring test. -/
def containsSub (sub l : List Char) : Bool :=
  l.tails.any fun t => sub.isPrefixOf t

/-- Character class `[\d.]` of the energy-value capture group. -/
def isNumChar (c : Char) : Bool := c.isDigit || c = '.'

/-- Character class `[\d.E+-]` of the stopping-power capture group. -/
def isMantChar (c : Char) : Bool :=
  c.isDigit || c = '.' || c = 'E' || c = '+' || c = '-'

/-- The unit part `([kMGT]?eV)` of `line_pattern`: greedy optional prefix
letter followed by the literal `eV`; returns the captured unit and the rest. -/
def matchUnit : List Char → Option (String × List Char)
  | 'k' :: 'e' :: 'V' :: r => some ("keV", r)
  | 'M' :: 'e' :: 'V' :: r => some ("MeV", r)
  | 'G' :: 'e' :: 'V' :: r => some ("GeV", r)
  | 'T' :: 'e' :: 'V' :: r => some ("TeV", r)
  | 'e' :: 'V' :: r => some ("eV", r)
  | _ => none

/-- `re.match` of `line_pattern = ^\s*([\d.]+)\s*([kMGT]?eV)\s+([\d.E+-]+)\s*`:
returns the three captured groups. -/
def matchLinePattern (cs : List Char) : Option (String × String × String) :=
  let cs1 := cs.dropWhile Char.isWhitespace
  let g1 := cs1.takeWhile isNumChar
  if g1.isEmpty then none
  else
    match matchUnit ((cs1.dropWhile isNumChar).dropWhile Char.isWhitespace) with
    | none => none
    | some (u, cs3) =>
      if (cs3.takeWhile Char.isWhitespace).isEmpty then none
      else
        let g3 := (cs3.dropWhile Char.isWhitespace).takeWhile isMantChar
        if g3.isEmpty then none else some (g1.asString, u, g3.asString)

/-- `re.match` of `energy_pattern = ^\s*[\d.]+\s*[kMGTe]?eV` (note the extra
`e` in the optional class), used by the fallback data-section scan. -/
def matchEnergyPattern (cs : List Char) : Bool :=
  let cs1 := cs.dropWhile Char.isWhitespace
  let g1 := cs1.takeWhile isNumChar
  if g1.isEmpty then false
  else
    match (cs1.dropWhile isNumChar).dropWhile Char.isWhitespace with
    | c :: 'e' :: 'V' :: _ => c = 'k' || c = 'M' || c = 'G' || c = 'T' || c = 'e'
    | 'e' :: 'V' :: _ => true
    | _ => false

/-- Numeric value of a digit string. -/
def digitsVal (ds : List Char) : ℕ := ds.foldl (fun n c => 10 * n + (c.toNat - 48)) 0

/-- Python `float()` on the captured groups, idealised over `ℚ`:
optional sign, mantissa `d+ | d+.d* | .d+`, optional exponent `(e|E)(+|-)?d+`,
nothing else; `none` models the `ValueError` of an unconvertible string. -/
def parseFloatQ (s : String) : Option ℚ :=
  let cs := s.toList
  let sgn : ℚ := match cs with | '-' :: _ => -1 | _ => 1
  let cs1 := match cs with | '+' :: r => r | '-' :: r => r | r => r
  let ip := cs1.takeWhile Char.isDigit
  let cs2 := cs1.dropWhile Char.isDigit
  let fp := match cs2 with | '.' :: r => r.takeWhile Char.isDigit | _ => []
  let cs3 := match cs2 with | '.' :: r => r.dropWhile Char.isDigit | r => r
  if ip.isEmpty && fp.isEmpty then none
  else
    let mant : ℚ := (digitsVal ip : ℚ) + (digitsVal fp : ℚ) / ((10 : ℚ) ^ fp.length)
    match cs3 with
    | [] => some (sgn * mant)
    | 'e' :: r | 'E' :: r =>
      let esgn : ℤ := match r with | '-' :: _ => -1 | _ => 1
      let r1 := match r with | '+' :: r2 => r2 | '-' :: r2 => r2 | r2 => r2
      let ed := r1.takeWhile Char.isDigit
      if ed.isEmpty || !(r1.dropWhile Char.isDigit).isEmpty then none
      else some (sgn * mant * (10 : ℚ) ^ (esgn * (digitsVal ed : ℤ)))
    | _ => none

/-- `_convert_to_mev`: unit-table lookup after `unit.strip().lower()`. -/
def _convert_to_mev (value : ℚ) (unit : String) : Except ParseErr ℚ :=
  let u := toLowerChars (trimChars unit.toList)
  if u = "ev".toList then .ok (value * (1 / 1000000))
  else if u = "kev".toList then .ok (value * (1 / 1000))
  else if u = "mev".toList then .ok (value * 1)
  else if u = "gev".toList then .ok (value * 1000)
  else if u = "tev".toList then .ok (value * 1000000)
  else .error .unknownUnit

/-- One iteration of the data-row loop body: skip blank or unmatched lines,
otherwise convert the captured groups (`float` + `_convert_to_mev`). -/
def parseDataLine (l : List Char) : Except ParseErr (Option (ℚ × ℚ)) :=
  if trimChars l = [] then .ok none
  else
    match matchLinePattern l with
    | none => .ok none
    | some (v, u, d) =>
      match parseFloatQ v, parseFloatQ d with
      | some ev, some dv =>
        match _convert_to_mev ev u with
        | .ok e => .ok (some (e, dv))
        | .error err => .error err
      | _, _ => .error .floatConversion

/-- The data-row extraction loop over `lines[data_start_idx:data_end_idx]`. -/
def parseRows : List (List Char) → Except ParseErr (List (ℚ × ℚ))
  | [] => .ok []
  | l :: rest =>
    match parseDataLine l with
    | .error e => .error e
    | .ok none => parseRows rest
    | .ok (some row) =>
      match parseRows rest with
      | .error e => .error e
      | .ok rows => .ok (row :: rows)

/-- End-of-data-section test for the line `l` at offset `k` from
`data_start_idx` (header branch): blank line, a repeated `---`/`===`
separator, a `Multiply` line, or a `Stopping ... Units` line. -/
def isEndLine (k : ℕ) (l : List Char) : Bool :=
  let s := trimChars l
  s.isEmpty || (decide (0 < k) && ("---".toList.isPrefixOf s || "===".toList.isPrefixOf s)) ||
    "Multiply".toList.isPrefixOf s || (containsSub "Stopping".toList s && containsSub "Units".toList s)

/-- Offset of the first end-of-data line (header branch). -/
def findEndIdx : List (List Char) → ℕ → Option ℕ
  | [], _ => none
  | l :: rest, k => if isEndLine k l then some k else findEndIdx rest (k + 1)

/-- The fallback scan used when no header line is found: returns the data
start index and, optionally, the end index. -/
def fallbackScan : List (List Char) → ℕ → Option ℕ → Option (ℕ × Option ℕ)
  | [], _, st => st.map fun s => (s, none)
  | l :: rest, i, st =>
    if matchEnergyPattern l then
      fallbackScan rest (i + 1) (if st.isSome then st else some i)
    else
      match st with
      | some s =>
        if (trimChars l).isEmpty then fallbackScan rest (i + 1) st
        else if "-".toList.isPrefixOf (trimChars l) || "=".toList.isPrefixOf (trimChars l) then
          some (s, some i)
        else fallbackScan rest (i + 1) st
      | none => fallbackScan rest (i + 1) none

/-- Header line test: contains `Energy` and `Elec` (or `Electronic`). -/
def isHeaderLine (l : List Char) : Bool :=
  containsSub "Energy".toList l &&
    (containsSub "Elec".toList l || containsSub "Electronic".toList l)

/-- Separator line test: stripped line starts with `-` or `=`. -/
def isSepLine (l : List Char) : Bool :=
  "-".toList.isPrefixOf (trimChars l) || "=".toList.isPrefixOf (trimChars l)

/-- `parse_srim_text`: split into lines, locate the data section (header
strategy, then fallback), extract rows, require at least one row, and return
the rows sorted by energy. -/
def parse_srim_text (content : String) : Except ParseErr (List (ℚ × ℚ)) :=
  let lines := splitNewlines (trimChars content.toList)
  let startEnd : Option (ℕ × Option ℕ) :=
    match lines.findIdx? isHeaderLine with
    | some i =>
      let ds :=
        match (lines.drop (i + 1)).findIdx? isSepLine with
        | some j => i + 1 + j + 1
        | none => i + 1
      some (ds, (findEndIdx (lines.drop ds) 0).map (ds + ·))
    | none => fallbackScan lines 0 none
  match startEnd with
  | none => .error .noDataSection
  | some (ds, de) =>
    let body :=
      match de with
      | some e => (lines.drop ds).take (e - ds)
      | none => lines.drop ds
    match parseRows body with
    | .error e => .error e
    | .ok rows =>
      if rows.isEmpty then .error .noDataPoints
      else .ok (sortByKey Prod.fst rows)

/-- Whether a parser outcome is the `Unknown energy unit` error. -/
def isUnknownUnitError {α : Type} : Except ParseErr α → Bool
  | .error .unknownUnit => true
  | _ => false

/-- Modelled from the spec: the unit conversion table
eV→1e-6, keV→1e-3, MeV→1, GeV→1e3, TeV→1e6 (multiplicative factor to MeV),
as written in the spec, for comparison with `_convert_to_mev`. -/
def spec_unit_factor (u : String) : ℚ :=
  if u = "eV" then 1 / 1000000
  else if u = "keV" then 1 / 1000
  else if u = "MeV" then 1
  else if u = "GeV" then 1000
  else if u = "TeV" then 1000000
  else 0

/-! ## Physics module (`physics.py`) -/

/-- Error outcomes of the physics routines, following the spec's taxonomy:
the three `ValueError` input checks and the negative-kB check are
`invalidArgument`, the two no-sign-change raises are `noSolutionInRange`. -/
inductive PhysErr
  | invalidArgument
  | noSolutionInRange
  | integrationFailure
  | rootFindingFailure
  deriving DecidableEq

/-- The value on the line through `p` and `q` at abscissa `e`. -/
noncomputable def lineVal (p q : ℝ × ℝ) (e : ℝ) : ℝ :=
  p.2 + (q.2 - p.2) * (e - p.1) / (q.1 - p.1)

/-- `interp1d(kind='linear', fill_value='extrapolate')` over the knot list:
piecewise linear through consecutive knots, extended by the first segment's
line below the first knot and the last segment's line above the last knot. -/
noncomputable def interpSegs : List (ℝ × ℝ) → ℝ → ℝ
  | [], _ => 0
  | [p], _ => p.2
  | [p, q], e => lineVal p q e
  | p :: q :: r :: rest, e =>
    if e ≤ q.1 then lineVal p q e else interpSegs (q :: r :: rest) e

/-- `BirksCalculator.__init__`: sort the samples by energy and prepend a
`(0, 0)` sample when the smallest energy is strictly positive. -/
noncomputable def construct (df : List (ℝ × ℝ)) : List (ℝ × ℝ) :=
  match sortByKey Prod.fst df with
  | [] => []
  | p :: rest => if 0 < p.1 then (0, 0) :: p :: rest else p :: rest

/-- The integrand of `calculate_visible_energy`:
`1 / (1 + kB * dE/dx(E))`, clamped to `0` where the denominator is `≤ 0`. -/
noncomputable def integrand (c : List (ℝ × ℝ)) (kB E : ℝ) : ℝ :=
  if 1 + kB * interpSegs c E ≤ 0 then 0 else 1 / (1 + kB * interpSegs c E)

/-- The value computed by `calculate_visible_energy` on its non-error paths:
`0` for non-positive initial energy, otherwise the integral of `integrand`
from `0` to the initial energy (`scipy.integrate.quad` idealised as the exact
interval integral). -/
noncomputable def visibleVal (c : List (ℝ × ℝ)) (E0 kB : ℝ) : ℝ :=
  if E0 ≤ 0 then 0 else ∫ E in (0 : ℝ)..E0, integrand c kB E

/-- `calculate_visible_energy`: returns `0` for `initial_energy <= 0`, raises
for negative `kB`, otherwise integrates Birks' law. -/
noncomputable def calculate_visible_energy (c : List (ℝ × ℝ)) (E0 kB : ℝ) :
    Except PhysErr ℝ :=
  if E0 ≤ 0 then .ok 0
  else if kB < 0 then .error .invalidArgument
  else .ok (∫ E in (0 : ℝ)..E0, integrand c kB E)

/-- The quenching-factor value on the non-error paths:
`0` for non-positive initial energy, else `visibleVal / E0`. -/
noncomputable def qfVal (c : List (ℝ × ℝ)) (E0 kB : ℝ) : ℝ :=
  if E0 ≤ 0 then 0 else visibleVal c E0 kB / E0

/-- `calculate_quenching_factor`: `0` for `initial_energy <= 0`, otherwise
`calculate_visible_energy / initial_energy` (propagating its error). -/
noncomputable def calculate_quenching_factor (c : List (ℝ × ℝ)) (E0 kB : ℝ) :
    Except PhysErr ℝ :=
  if E0 ≤ 0 then .ok 0
  else
    match calculate_visible_energy c E0 kB with
    | .error e => .error e
    | .ok v => .ok (v / E0)

open Classical in
/-- `scipy.optimize.brentq` idealised by its contract: on a bracket that
contains a root of `f`, it returns such a root. -/
noncomputable def brentRoot (f : ℝ → ℝ) (a b : ℝ) : ℝ :=
  if h : ∃ x, x ∈ Set.Icc a b ∧ f x = 0 then h.choose else 0

/-- `solve_kb`: the three input checks, the `1e-9` shortcut, the bracket
sign check with its single widening of the upper bound to `2.0`, and the
final Brent root search. -/
noncomputable def solve_kb (c : List (ℝ × ℝ)) (E0 obs kbmin kbmax : ℝ) :
    Except PhysErr ℝ :=
  if E0 ≤ 0 then .error .invalidArgument
  else if obs ≤ 0 then .error .invalidArgument
  else if E0 < obs then .error .invalidArgument
  else if |obs - E0| < 1e-9 then .ok 0
  else
    match calculate_visible_energy c E0 kbmin, calculate_visible_energy c E0 kbmax with
    | .error e, _ => .error e
    | .ok _, .error e => .error e
    | .ok vmin, .ok vmax =>
      if 0 < (vmin - obs) * (vmax - obs) then
        if 0 < vmax - obs then
          match calculate_visible_energy c E0 2 with
          | .error e => .error e
          | .ok v2 =>
            if 0 < v2 - obs then .error .noSolutionInRange
            else .ok (brentRoot (fun kb => visibleVal c E0 kb - obs) kbmin 2)
        else .error .noSolutionInRange
      else .ok (brentRoot (fun kb => visibleVal c E0 kb - obs) kbmin kbmax)

/-! ## Basic lemmas about the physics embedding -/

theorem calculate_visible_energy_eq (c : List (ℝ × ℝ)) (E0 kB : ℝ) (h : 0 ≤ kB) :
    calculate_visible_energy c E0 kB = .ok (visibleVal c E0 kB) := by
  by_cases hE : E0 ≤ 0
  · simp [calculate_visible_energy, visibleVal, hE]
  · simp [calculate_visible_energy, visibleVal, hE, not_lt.mpr h]

theorem measurable_lineVal (p q : ℝ × ℝ) : Measurable (lineVal p q) := by
  have h : lineVal p q = fun e => p.2 + (q.2 - p.2) * (e - p.1) * (q.1 - p.1)⁻¹ := by
    funext e; unfold lineVal; ring
  rw [h]
  exact (((measurable_id.sub_const p.1).const_mul (q.2 - p.2)).mul_const (q.1 - p.1)⁻¹).const_add p.2

theorem measurable_interpSegs : ∀ c : List (ℝ × ℝ), Measurable (interpSegs c) := by
  intro c
  induction c with
  | nil => exact measurable_const
  | cons p rest ih =>
    cases rest with
    | nil => exact measurable_const
    | cons q rest2 =>
      cases rest2 with
      | nil => exact measurable_lineVal p q
      | cons r rest3 =>
        have h : interpSegs (p :: q :: r :: rest3) =
            fun e => if e ≤ q.1 then lineVal p q e else interpSegs (q :: r :: rest3) e := rfl
        rw [h]
        exact Measurable.ite (measurableSet_Iic) (measurable_lineVal p q) ih

theorem measurable_integrand (c : List (ℝ × ℝ)) (kB : ℝ) : Measurable (integrand c kB) := by
  have hden : Measurable fun E => 1 + kB * interpSegs c E :=
    ((measurable_interpSegs c).const_mul kB).const_add 1
  unfold integrand
  exact Measurable.ite (measurableSet_le hden measurable_const) measurable_const
    (measurable_const.div hden)

theorem integrand_nonneg (c : List (ℝ × ℝ)) (kB E : ℝ) : 0 ≤ integrand c kB E := by
  unfold integrand
  split
  · exact le_rfl
  · next h => exact le_of_lt (div_pos one_pos (not_le.mp h))

theorem integrand_mono (c : List (ℝ × ℝ)) {kB1 kB2 : ℝ} (E : ℝ) (h1 : 0 ≤ kB1)
    (h12 : kB1 ≤ kB2) (hd : 0 ≤ interpSegs c E) :
    integrand c kB2 E ≤ integrand c kB1 E := by
  unfold integrand
  have hd1 : (1 : ℝ) ≤ 1 + kB1 * interpSegs c E := by nlinarith
  have hd2 : 1 + kB1 * interpSegs c E ≤ 1 + kB2 * interpSegs c E := by nlinarith
  rw [if_neg (by linarith), if_neg (by linarith)]
  exact one_div_le_one_div_of_le (by linarith) hd2

theorem intervalIntegrable_integrand (c : List (ℝ × ℝ)) (kB E0 : ℝ) (hkB : 0 ≤ kB)
    (hd : ∀ E ∈ Icc (0 : ℝ) E0, 0 ≤ interpSegs c E) (hE0 : 0 ≤ E0) :
    IntervalIntegrable (integrand c kB) volume 0 E0 := by
  apply IntervalIntegrable.mono_fun' (g := fun _ => (1 : ℝ)) intervalIntegrable_const
    ((measurable_integrand c kB).aestronglyMeasurable)
  have hsub : Ι (0 : ℝ) E0 ⊆ Icc 0 E0 := by
    rw [uIoc_of_le hE0]; exact Ioc_subset_Icc_self
  refine (ae_restrict_iff' measurableSet_uIoc).2 (Filter.Eventually.of_forall fun x hx => ?_)
  have hdx := hd x (hsub hx)
  have hden : (1 : ℝ) ≤ 1 + kB * interpSegs c x := by nlinarith
  show ‖integrand c kB x‖ ≤ 1
  unfold integrand
  rw [if_neg (by linarith)]
  rw [Real.norm_eq_abs, abs_of_nonneg (le_of_lt (div_pos one_pos (by linarith)))]
  rw [div_le_one (by linarith)]
  exact hden

theorem visibleVal_mono (c : List (ℝ × ℝ)) {E0 kB1 kB2 : ℝ} (hE0 : 0 < E0) (h1 : 0 ≤ kB1)
    (h12 : kB1 ≤ kB2) (hd : ∀ E ∈ Icc (0 : ℝ) E0, 0 ≤ interpSegs c E) :
    visibleVal c E0 kB2 ≤ visibleVal c E0 kB1 := by
  unfold visibleVal
  rw [if_neg (not_le.mpr hE0), if_neg (not_le.mpr hE0)]
  exact intervalIntegral.integral_mono_on hE0.le
    (intervalIntegrable_integrand c kB2 E0 (h1.trans h12) hd hE0.le)
    (intervalIntegrable_integrand c kB1 E0 h1 hd hE0.le)
    (fun x hx => integrand_mono c x h1 h12 (hd x hx))

theorem integrand_kB_zero (c : List (ℝ × ℝ)) (E : ℝ) : integrand c 0 E = 1 := by
  unfold integrand
  norm_num

theorem visibleVal_kB_zero (c : List (ℝ × ℝ)) (E0 : ℝ) (hE0 : 0 < E0) :
    visibleVal c E0 0 = E0 := by
  unfold visibleVal
  rw [if_neg (not_le.mpr hE0)]
  simp [integrand_kB_zero]

theorem visibleVal_nonneg (c : List (ℝ × ℝ)) (E0 kB : ℝ) : 0 ≤ visibleVal c E0 kB := by
  unfold visibleVal
  split
  · exact le_rfl
  · next h =>
    exact intervalIntegral.integral_nonneg (le_of_lt (not_le.mp h))
      (fun u _ => integrand_nonneg c kB u)

theorem visibleVal_le (c : List (ℝ × ℝ)) {E0 kB : ℝ} (hE0 : 0 < E0) (hkB : 0 ≤ kB)
    (hd : ∀ E ∈ Icc (0 : ℝ) E0, 0 ≤ interpSegs c E) : visibleVal c E0 kB ≤ E0 :=
  (visibleVal_mono c hE0 le_rfl hkB hd).trans_eq (visibleVal_kB_zero c E0 hE0)

theorem visibleVal_pos (c : List (ℝ × ℝ)) {E0 kB : ℝ} (hE0 : 0 < E0) (hkB : 0 ≤ kB)
    (hd : ∀ E ∈ Icc (0 : ℝ) E0, 0 ≤ interpSegs c E) : 0 < visibleVal c E0 kB := by
  unfold visibleVal
  rw [if_neg (not_le.mpr hE0)]
  apply intervalIntegral.intervalIntegral_pos_of_pos_on
    (intervalIntegrable_integrand c kB E0 hkB hd hE0.le) ?_ hE0
  intro x hx
  have hdx := hd x (Ioo_subset_Icc_self hx)
  have hden : (1 : ℝ) ≤ 1 + kB * interpSegs c x := by nlinarith
  unfold integrand
  rw [if_neg (by linarith)]
  exact div_pos one_pos (by linarith)

theorem calculate_quenching_factor_eq (c : List (ℝ × ℝ)) (E0 kB : ℝ) (h : 0 ≤ kB) :
    calculate_quenching_factor c E0 kB = .ok (qfVal c E0 kB) := by
  unfold calculate_quenching_factor qfVal
  by_cases hE : E0 ≤ 0
  · simp [hE]
  · simp [hE, calculate_visible_energy_eq c E0 kB h]

/-! ## Concrete curves used as test vectors -/

theorem construct_flat : construct [((1 : ℝ), (0 : ℝ))] = [(0, 0), (1, 0)] := by
  norm_num [construct, sortByKey, orderedInsertKey]

theorem interp_flat (e : ℝ) : interpSegs [((0 : ℝ), (0 : ℝ)), (1, 0)] e = 0 := by
  simp [interpSegs, lineVal]

theorem integrand_flat (kB E : ℝ) : integrand [((0 : ℝ), (0 : ℝ)), (1, 0)] kB E = 1 := by
  unfold integrand
  rw [interp_flat]
  norm_num

theorem visibleVal_flat (E0 kB : ℝ) (hE0 : 0 < E0) :
    visibleVal [((0 : ℝ), (0 : ℝ)), (1, 0)] E0 kB = E0 := by
  unfold visibleVal
  rw [if_neg (not_le.mpr hE0)]
  rw [intervalIntegral.integral_congr (g := fun _ => (1 : ℝ)) (fun x _ => integrand_flat kB x)]
  simp

theorem construct_ex : construct [((0 : ℝ), (1 : ℝ)), (1, 0)] = [(0, 1), (1, 0)] := by
  norm_num [construct, sortByKey, orderedInsertKey]

theorem interp_ex (e : ℝ) : interpSegs [((0 : ℝ), (1 : ℝ)), (1, 0)] e = 1 - e := by
  simp [interpSegs, lineVal]
  ring

theorem integrand_ex (E : ℝ) :
    integrand [((0 : ℝ), (1 : ℝ)), (1, 0)] 1 E = if 2 - E ≤ 0 then 0 else 1 / (2 - E) := by
  unfold integrand
  rw [interp_ex]
  have h : 1 + 1 * (1 - E) = 2 - E := by ring
  rw [h]

theorem visibleVal_ex : visibleVal [((0 : ℝ), (1 : ℝ)), (1, 0)] 1.9 1 = Real.log 20 := by
  unfold visibleVal
  rw [if_neg (by norm_num)]
  have h1 : EqOn (integrand [((0 : ℝ), (1 : ℝ)), (1, 0)] 1) (fun E => (2 - E)⁻¹)
      (uIcc (0 : ℝ) 1.9) := by
    intro x hx
    rw [uIcc_of_le (by norm_num : (0:ℝ) ≤ 1.9)] at hx
    rw [integrand_ex, if_neg (by simp only [mem_Icc] at hx; linarith [hx.2]), one_div]
  rw [intervalIntegral.integral_congr h1]
  rw [intervalIntegral.integral_comp_sub_left (fun x => x⁻¹) 2]
  rw [show (2:ℝ) - 1.9 = 0.1 by norm_num, show (2:ℝ) - 0 = 2 by norm_num]
  rw [integral_inv (by rw [uIcc_of_le (by norm_num : (0.1:ℝ) ≤ 2)]; simp only [mem_Icc]; norm_num)]
  norm_num

theorem log_twenty_gt : (1.9 : ℝ) < Real.log 20 := by
  rw [Real.lt_log_iff_exp_lt (by norm_num : (0 : ℝ) < 20)]
  calc Real.exp 1.9 ≤ Real.exp 2 := Real.exp_le_exp.mpr (by norm_num)
    _ = Real.exp 1 * Real.exp 1 := by rw [← Real.exp_add]; norm_num
    _ < 2.7182818286 * 2.7182818286 := by nlinarith [Real.exp_one_lt_d9, Real.exp_pos 1]
    _ < 20 := by norm_num

/-! ## Claims C1, C2, C4 -/

/-- C1 counterexample: for the constructed curve from samples
`[(0,1), (1,0)]` (whose linear extrapolation above the largest sample is
negative), `initialEnergy = 1.9` and `kB1 = 0 < kB2 = 1`, the quenching
factor strictly increases: `QF(1.9, 1) = log 20 / 1.9 > 1 = QF(1.9, 0)`,
refuting monotone non-increase in kB. -/
theorem c1_counterexample :
    calculate_quenching_factor (construct [((0 : ℝ), (1 : ℝ)), (1, 0)]) 1.9 0 = .ok 1 ∧
    calculate_quenching_factor (construct [((0 : ℝ), (1 : ℝ)), (1, 0)]) 1.9 1 =
      .ok (Real.log 20 / 1.9) ∧
    1 < Real.log 20 / 1.9 := by
  rw [construct_ex]
  refine ⟨?_, ?_, ?_⟩
  · rw [calculate_quenching_factor_eq _ _ _ le_rfl]
    unfold qfVal
    rw [if_neg (by norm_num), visibleVal_kB_zero _ _ (by norm_num)]
    norm_num
  · rw [calculate_quenching_factor_eq _ _ _ (by norm_num)]
    unfold qfVal
    rw [if_neg (by norm_num), visibleVal_ex]
  · rw [lt_div_iff (by norm_num), one_mul]
    exact log_twenty_gt

/-- C1 (amended): the quenching factor is monotonically non-increasing in kB
at fixed `initialEnergy > 0` provided the interpolated stopping power is
nonnegative on `[0, initialEnergy]` (in particular whenever no negative
linear extrapolation is reached); without that proviso the claim fails. -/
theorem c1_amended (df : List (ℝ × ℝ)) (E0 kB1 kB2 q1 q2 : ℝ) (hE0 : 0 < E0)
    (h1 : 0 ≤ kB1) (h12 : kB1 < kB2)
    (hd : ∀ E ∈ Icc (0 : ℝ) E0, 0 ≤ interpSegs (construct df) E)
    (hq1 : calculate_quenching_factor (construct df) E0 kB1 = .ok q1)
    (hq2 : calculate_quenching_factor (construct df) E0 kB2 = .ok q2) :
    q2 ≤ q1 := by
  rw [calculate_quenching_factor_eq _ _ _ h1] at hq1
  rw [calculate_quenching_factor_eq _ _ _ (h1.trans h12.le)] at hq2
  simp only [Except.ok.injEq] at hq1 hq2
  rw [← hq1, ← hq2]
  unfold qfVal
  rw [if_neg (not_le.mpr hE0), if_neg (not_le.mpr hE0)]
  exact (div_le_div_right hE0).mpr (visibleVal_mono (construct df) hE0 h1 h12.le hd)

/-- Witness for C1 (amended) at the flat curve from the single sample
`(1, 0)` with `E0 = 1`, `kB1 = 0`, `kB2 = 1`: both quenching factors are 1. -/
theorem c1_amended_witness : (1 : ℝ) ≤ 1 := by
  refine c1_amended [((1 : ℝ), (0 : ℝ))] 1 0 1 1 1 (by norm_num) le_rfl (by norm_num) ?_ ?_ ?_
  · intro E _
    rw [construct_flat, interp_flat]
  · rw [construct_flat, calculate_quenching_factor_eq _ _ _ le_rfl]
    unfold qfVal
    rw [if_neg (by norm_num), visibleVal_flat 1 0 (by norm_num)]
    norm_num
  · rw [construct_flat, calculate_quenching_factor_eq _ _ _ (by norm_num : (0:ℝ) ≤ 1)]
    unfold qfVal
    rw [if_neg (by norm_num), visibleVal_flat 1 1 (by norm_num)]
    norm_num

/-- C2 counterexample: for the constructed curve from samples `[(0,1), (1,0)]`,
`initialEnergy = 1.9` and `kB = 1`, `calculate_quenching_factor` succeeds but
returns `log 20 / 1.9 > 1`, outside the claimed interval `[0, 1]`. -/
theorem c2_counterexample :
    calculate_quenching_factor (construct [((0 : ℝ), (1 : ℝ)), (1, 0)]) 1.9 1 =
      .ok (Real.log 20 / 1.9) ∧
    ¬ Real.log 20 / 1.9 ≤ 1 := by
  rw [construct_ex]
  constructor
  · rw [calculate_quenching_factor_eq _ _ _ (by norm_num)]
    unfold qfVal
    rw [if_neg (by norm_num), visibleVal_ex]
  · rw [not_le, lt_div_iff (by norm_num), one_mul]
    exact log_twenty_gt

/-- C2 (amended): for every constructed curve and kB ≥ 0, the
quenching-factor call succeeds with value 0 when `initialEnergy ≤ 0` and
`visibleEnergy/initialEnergy` otherwise, and the value is always `≥ 0`; it is
moreover `≤ 1` provided the interpolated stopping power is nonnegative on
`[0, initialEnergy]` (without that proviso `q ≤ 1` can fail). -/
theorem c2_amended (df : List (ℝ × ℝ)) (E0 kB q : ℝ) (hkB : 0 ≤ kB)
    (hq : calculate_quenching_factor (construct df) E0 kB = .ok q) :
    0 ≤ q ∧ (E0 ≤ 0 → q = 0) ∧ (0 < E0 → q = visibleVal (construct df) E0 kB / E0) ∧
      ((∀ E ∈ Icc (0 : ℝ) E0, 0 ≤ interpSegs (construct df) E) → q ≤ 1) := by
  rw [calculate_quenching_factor_eq _ _ _ hkB] at hq
  simp only [Except.ok.injEq] at hq
  rw [← hq]
  unfold qfVal
  by_cases hE : E0 ≤ 0
  · rw [if_pos hE]
    exact ⟨le_rfl, fun _ => rfl, fun h => absurd h (not_lt.mpr hE), fun _ => by norm_num⟩
  · rw [if_neg hE]
    have hE0 : 0 < E0 := not_le.mp hE
    refine ⟨?_, fun h => absurd h hE, fun _ => rfl, fun hd => ?_⟩
    · exact div_nonneg (visibleVal_nonneg _ _ _) hE0.le
    · rw [div_le_one hE0]
      exact visibleVal_le _ hE0 hkB hd

/-- Witness for C2 (amended) at the flat curve from the single sample
`(1, 0)` with `E0 = 1`, `kB = 1`, `q = 1`. -/
theorem c2_amended_witness :
    0 ≤ (1 : ℝ) ∧ ((1 : ℝ) ≤ 0 → (1 : ℝ) = 0) ∧
      (0 < (1 : ℝ) → (1 : ℝ) = visibleVal (construct [((1 : ℝ), (0 : ℝ))]) 1 1 / 1) ∧
      ((∀ E ∈ Icc (0 : ℝ) 1, 0 ≤ interpSegs (construct [((1 : ℝ), (0 : ℝ))]) E) →
        (1 : ℝ) ≤ 1) := by
  refine c2_amended [((1 : ℝ), (0 : ℝ))] 1 1 1 (by norm_num) ?_
  rw [construct_flat, calculate_quenching_factor_eq _ _ _ (by norm_num : (0:ℝ) ≤ 1)]
  unfold qfVal
  rw [if_neg (by norm_num), visibleVal_flat 1 1 (by norm_num)]
  norm_num

/-- C4: for every constructed curve and `initialEnergy > 0`, the zero-kB call
succeeds and the visible energy equals the initial energy within 1e-6
(in this exact-integration model, exactly). -/
theorem c4_zero_quenching (df : List (ℝ × ℝ)) (E0 : ℝ) (hE0 : 0 < E0) :
    calculate_visible_energy (construct df) E0 0 = .ok (visibleVal (construct df) E0 0) ∧
    |visibleVal (construct df) E0 0 - E0| ≤ 1e-6 := by
  refine ⟨calculate_visible_energy_eq _ _ _ le_rfl, ?_⟩
  rw [visibleVal_kB_zero _ _ hE0]
  norm_num

/-- Witness for C4 at the flat curve from the single sample `(1, 0)`,
`E0 = 1`. -/
theorem c4_zero_quenching_witness :
    calculate_visible_energy (construct [((1 : ℝ), (0 : ℝ))]) 1 0 =
      .ok (visibleVal (construct [((1 : ℝ), (0 : ℝ))]) 1 0) ∧
    |visibleVal (construct [((1 : ℝ), (0 : ℝ))]) 1 0 - 1| ≤ 1e-6 :=
  c4_zero_quenching [((1 : ℝ), (0 : ℝ))] 1 (by norm_num)

/-! ## Claim C3 -/

theorem brentRoot_spec (f : ℝ → ℝ) (a b : ℝ) (h : ∃ x, x ∈ Icc a b ∧ f x = 0) :
    brentRoot f a b ∈ Icc a b ∧ f (brentRoot f a b) = 0 := by
  unfold brentRoot
  rw [dif_pos h]
  exact h.choose_spec

/-- C3 counterexample: for the constructed curve from the single sample
`(1, 0)` (constant zero stopping power), `initialEnergy = 1`, `kB = 0.3`,
the forward value is `v = 1 = initialEnergy`, so `solveKB` takes its `1e-9`
shortcut and returns `0`, which is not within `1e-6` of `kB = 0.3`. -/
theorem c3_counterexample :
    calculate_visible_energy (construct [((1 : ℝ), (0 : ℝ))]) 1 0.3 = .ok 1 ∧
    solve_kb (construct [((1 : ℝ), (0 : ℝ))]) 1 1 0 0.5 = .ok 0 ∧
    ¬ |(0 : ℝ) - 0.3| ≤ 1e-6 := by
  rw [construct_flat]
  refine ⟨?_, ?_, ?_⟩
  · rw [calculate_visible_energy_eq _ _ _ (by norm_num), visibleVal_flat 1 0.3 (by norm_num)]
  · unfold solve_kb
    rw [if_neg (by norm_num), if_neg (by norm_num), if_neg (by norm_num), if_pos (by norm_num)]
  · rw [not_le, show (0 : ℝ) - 0.3 = -(0.3) by norm_num, abs_neg,
      abs_of_nonneg (by norm_num : (0 : ℝ) ≤ 0.3)]
    norm_num

/-- C3 (amended): for curves whose interpolated stopping power is nonnegative
on `[0, initialEnergy]`, `initialEnergy > 0` and `kB ∈ [0, 0.5)`, the call
`solveKB(initialEnergy, visibleEnergy(initialEnergy, kB))` with the default
bracket succeeds, and the returned `r` reproduces the observed visible energy
within `1e-6` (`visibleEnergy(initialEnergy, r) = v` except in the `1e-9`
shortcut); `r` itself need not be near `kB` when the forward map is not
injective. -/
theorem c3_amended (df : List (ℝ × ℝ)) (E0 kB : ℝ) (hE0 : 0 < E0) (hkB : 0 ≤ kB)
    (hkB5 : kB < 0.5)
    (hd : ∀ E ∈ Icc (0 : ℝ) E0, 0 ≤ interpSegs (construct df) E) :
    ∃ r, solve_kb (construct df) E0 (visibleVal (construct df) E0 kB) 0 0.5 = .ok r ∧
      |visibleVal (construct df) E0 r - visibleVal (construct df) E0 kB| ≤ 1e-6 := by
  set c := construct df with hc
  set v := visibleVal c E0 kB with hv
  have hvpos : 0 < v := visibleVal_pos c hE0 hkB hd
  have hvle : v ≤ E0 := visibleVal_le c hE0 hkB hd
  unfold solve_kb
  rw [if_neg (not_le.mpr hE0), if_neg (not_le.mpr hvpos), if_neg (not_lt.mpr hvle)]
  by_cases hclose : |v - E0| < 1e-9
  · rw [if_pos hclose]
    refine ⟨0, rfl, ?_⟩
    rw [visibleVal_kB_zero c E0 hE0, abs_sub_comm]
    exact hclose.le.trans (by norm_num)
  · rw [if_neg hclose]
    rw [calculate_visible_energy_eq c E0 0 le_rfl,
      calculate_visible_energy_eq c E0 0.5 (by norm_num)]
    have hmin : visibleVal c E0 0 = E0 := visibleVal_kB_zero c E0 hE0
    have hvlt : v < E0 := by
      rcases hvle.lt_or_eq with h | h
      · exact h
      · exact absurd (by rw [h]; norm_num : |v - E0| < 1e-9) hclose
    have hmax_le : visibleVal c E0 0.5 ≤ v := visibleVal_mono c hE0 hkB hkB5.le hd
    refine ⟨brentRoot (fun kb => visibleVal c E0 kb - v) 0 0.5, ?_, ?_⟩
    · dsimp only
      rw [hmin, if_neg (by nlinarith)]
    · have hroot := brentRoot_spec (fun kb => visibleVal c E0 kb - v) 0 0.5
        ⟨kB, ⟨hkB, hkB5.le⟩, by show visibleVal c E0 kB - v = 0; rw [hv]; exact sub_self _⟩
      have h2 := hroot.2
      rw [sub_eq_zero] at h2
      rw [h2]
      norm_num

/-- Witness for C3 (amended) at the flat curve from the single sample
`(1, 0)`, `E0 = 1`, `kB = 0.3`. -/
theorem c3_amended_witness :
    ∃ r, solve_kb (construct [((1 : ℝ), (0 : ℝ))]) 1
        (visibleVal (construct [((1 : ℝ), (0 : ℝ))]) 1 0.3) 0 0.5 = .ok r ∧
      |visibleVal (construct [((1 : ℝ), (0 : ℝ))]) 1 r -
        visibleVal (construct [((1 : ℝ), (0 : ℝ))]) 1 0.3| ≤ 1e-6 := by
  refine c3_amended [((1 : ℝ), (0 : ℝ))] 1 0.3 (by norm_num) (by norm_num) (by norm_num) ?_
  intro E _
  rw [construct_flat, interp_flat]

/-! ## Claims C5, C6, C8 -/

/-- C5: with the default bracket `[0, 0.5]`, `solveKB` returns the
`InvalidArgument` error exactly when `initialEnergy ≤ 0`, `observedEnergy ≤ 0`
or `observedEnergy > initialEnergy`; the checks precede any integration or
root search in the definition. -/
theorem c5_invalid_inputs (df : List (ℝ × ℝ)) (E0 obs : ℝ) :
    solve_kb (construct df) E0 obs 0 0.5 = .error .invalidArgument ↔
      (E0 ≤ 0 ∨ obs ≤ 0 ∨ E0 < obs) := by
  unfold solve_kb
  by_cases h1 : E0 ≤ 0
  · simp [h1]
  · rw [if_neg h1]
    by_cases h2 : obs ≤ 0
    · simp [h1, h2]
    · rw [if_neg h2]
      by_cases h3 : E0 < obs
      · simp [h1, h2, h3]
      · rw [if_neg h3]
        refine iff_of_false ?_ (by tauto)
        by_cases h4 : |obs - E0| < 1e-9
        · rw [if_pos h4]
          simp
        · rw [if_neg h4, calculate_visible_energy_eq _ _ _ le_rfl,
            calculate_visible_energy_eq _ _ _ (by norm_num : (0 : ℝ) ≤ 0.5),
            calculate_visible_energy_eq _ _ _ (by norm_num : (0 : ℝ) ≤ 2)]
          dsimp only
          split_ifs <;> simp

/-- Witness for C5 at the flat curve, `E0 = -1`, `obs = 1`. -/
theorem c5_invalid_inputs_witness :
    solve_kb (construct [((1 : ℝ), (0 : ℝ))]) (-1) 1 0 0.5 = .error .invalidArgument :=
  (c5_invalid_inputs [((1 : ℝ), (0 : ℝ))] (-1) 1).mpr (Or.inl (by norm_num))

/-- C6: once the input checks pass and the `1e-9` shortcut does not fire,
with nonnegative bracket endpoints: (a) if the objective is positive at both
endpoints, the call fails with `NoSolutionInRange` exactly when the objective
is still positive at the widened upper bound `2.0`; (b) if the objective is
negative at both endpoints, the call fails with `NoSolutionInRange`
immediately, with no widening. -/
theorem c6_bracket (df : List (ℝ × ℝ)) (E0 obs kbmin kbmax : ℝ) (hE0 : 0 < E0)
    (hobs : 0 < obs) (hle : obs ≤ E0) (hfar : ¬ |obs - E0| < 1e-9)
    (hmin : 0 ≤ kbmin) (hmax : 0 ≤ kbmax) :
    (0 < visibleVal (construct df) E0 kbmin - obs ∧
        0 < visibleVal (construct df) E0 kbmax - obs →
      (solve_kb (construct df) E0 obs kbmin kbmax = .error .noSolutionInRange ↔
        0 < visibleVal (construct df) E0 2 - obs)) ∧
    (visibleVal (construct df) E0 kbmin - obs < 0 ∧
        visibleVal (construct df) E0 kbmax - obs < 0 →
      solve_kb (construct df) E0 obs kbmin kbmax = .error .noSolutionInRange) := by
  unfold solve_kb
  rw [if_neg (not_le.mpr hE0), if_neg (not_le.mpr hobs), if_neg (not_lt.mpr hle),
    if_neg hfar, calculate_visible_energy_eq _ _ _ hmin,
    calculate_visible_energy_eq _ _ _ hmax,
    calculate_visible_energy_eq _ _ _ (by norm_num : (0 : ℝ) ≤ 2)]
  dsimp only
  constructor
  · rintro ⟨hp1, hp2⟩
    rw [if_pos (mul_pos hp1 hp2), if_pos hp2]
    split_ifs with h5
    · exact iff_of_true rfl h5
    · exact iff_of_false (by simp) h5
  · rintro ⟨hn1, hn2⟩
    rw [if_pos (mul_pos_of_neg_of_neg hn1 hn2), if_neg (not_lt.mpr hn2.le)]

/-- Witness for C6 at the flat curve, `E0 = 1`, `obs = 0.5`, default bracket:
the objective is `0.5` everywhere, so the call fails with
`NoSolutionInRange` after the widening attempt. -/
theorem c6_bracket_witness :
    solve_kb (construct [((1 : ℝ), (0 : ℝ))]) 1 0.5 0 0.5 = .error .noSolutionInRange := by
  have hv : ∀ kb : ℝ, visibleVal (construct [((1 : ℝ), (0 : ℝ))]) 1 kb = 1 := fun kb => by
    rw [construct_flat]
    exact visibleVal_flat 1 kb (by norm_num)
  have h := c6_bracket [((1 : ℝ), (0 : ℝ))] 1 0.5 0 0.5 (by norm_num) (by norm_num)
    (by norm_num)
    (by rw [show (0.5 : ℝ) - 1 = -(0.5) by norm_num, abs_neg,
        abs_of_nonneg (by norm_num : (0 : ℝ) ≤ 0.5)]; norm_num)
    le_rfl (by norm_num)
  refine (h.1 ⟨?_, ?_⟩).mpr ?_ <;> rw [hv] <;> norm_num

/-- C8: the `1e-9` tolerance of `solveKB` is one-sided: any
`observedEnergy > initialEnergy`, however close, yields the
`InvalidArgument` error, while the `kB = 0` shortcut fires only when
`observedEnergy ≤ initialEnergy` and `initialEnergy - observedEnergy < 1e-9`
(given positive inputs). -/
theorem c8_one_sided (df : List (ℝ × ℝ)) (E0 obs kbmin kbmax : ℝ) :
    (E0 < obs → solve_kb (construct df) E0 obs kbmin kbmax = .error .invalidArgument) ∧
    (0 < E0 → 0 < obs → obs ≤ E0 → E0 - obs < 1e-9 →
      solve_kb (construct df) E0 obs kbmin kbmax = .ok 0) := by
  constructor
  · intro h
    unfold solve_kb
    by_cases h1 : E0 ≤ 0
    · rw [if_pos h1]
    · rw [if_neg h1]
      by_cases h2 : obs ≤ 0
      · rw [if_pos h2]
      · rw [if_neg h2, if_pos h]
  · intro h1 h2 h3 h4
    unfold solve_kb
    rw [if_neg (not_le.mpr h1), if_neg (not_le.mpr h2), if_neg (not_lt.mpr h3),
      if_pos (by rw [abs_of_nonpos (by linarith)]; linarith)]

/-- Witness for C8 at the flat curve: `obs = 1 + 1e-10 > E0 = 1` raises, and
`obs = E0 = 1` returns `kB = 0`. -/
theorem c8_one_sided_witness :
    solve_kb (construct [((1 : ℝ), (0 : ℝ))]) 1 (1 + 1e-10) 0 0.5 = .error .invalidArgument ∧
    solve_kb (construct [((1 : ℝ), (0 : ℝ))]) 1 1 0 0.5 = .ok 0 :=
  ⟨(c8_one_sided [((1 : ℝ), (0 : ℝ))] 1 (1 + 1e-10) 0 0.5).1 (by norm_num),
   (c8_one_sided [((1 : ℝ), (0 : ℝ))] 1 1 0 0.5).2 (by norm_num) (by norm_num) le_rfl
     (by norm_num)⟩

/-! ## Parser lemmas -/

theorem data_asString (l : List Char) : (List.asString l).data = l := rfl

theorem matchUnit_cases (cs : List Char) (u : String) (r : List Char)
    (h : matchUnit cs = some (u, r)) :
    u = "eV" ∨ u = "keV" ∨ u = "MeV" ∨ u = "GeV" ∨ u = "TeV" := by
  unfold matchUnit at h
  split at h <;> simp_all

theorem matchLinePattern_unit (cs : List Char) (v u d : String)
    (h : matchLinePattern cs = some (v, u, d)) :
    u = "eV" ∨ u = "keV" ∨ u = "MeV" ∨ u = "GeV" ∨ u = "TeV" := by
  unfold matchLinePattern at h
  dsimp only at h
  split_ifs at h
  split at h
  · exact absurd h (by simp)
  · next u' cs3 heq =>
    split_ifs at h
    simp only [Option.some.injEq, Prod.mk.injEq] at h
    obtain ⟨-, hu, -⟩ := h
    rw [← hu]
    exact matchUnit_cases _ _ _ heq

theorem parseDataLine_ne_unknown (l : List Char) :
    parseDataLine l ≠ .error .unknownUnit := by
  unfold parseDataLine
  split_ifs with htrim
  · simp
  · cases hml : matchLinePattern l with
    | none => simp
    | some t =>
      obtain ⟨v, u, d⟩ := t
      rcases matchLinePattern_unit l v u d hml with h' | h' | h' | h' | h' <;> subst h' <;>
        simp +decide [_convert_to_mev, trimChars, toLowerChars] <;>
        split <;> simp

theorem isUnknownUnitError_parseRows : ∀ body, isUnknownUnitError (parseRows body) = false := by
  intro body
  induction body with
  | nil => rfl
  | cons l rest ih =>
    unfold parseRows
    cases hdl : parseDataLine l with
    | error e =>
      cases e with
      | unknownUnit => exact absurd hdl (parseDataLine_ne_unknown l)
      | noDataSection => rfl
      | floatConversion => rfl
      | noDataPoints => rfl
    | ok o =>
      cases o with
      | none => exact ih
      | some row =>
        cases hpr : parseRows rest with
        | error e =>
          rw [hpr] at ih
          exact ih
        | ok rows => rfl

theorem mem_orderedInsertKey {α β : Type} [LinearOrder β] (key : α → β) (p x : α) :
    ∀ l : List α, x ∈ orderedInsertKey key p l ↔ x = p ∨ x ∈ l := by
  intro l
  induction l with
  | nil => simp [orderedInsertKey]
  | cons q rest ih =>
    unfold orderedInsertKey
    split_ifs with h
    · simp [List.mem_cons]
    · simp only [List.mem_cons, ih]
      tauto

theorem pairwise_orderedInsertKey {α β : Type} [LinearOrder β] (key : α → β) (p : α)
    (l : List α) (h : l.Pairwise fun a b => key a ≤ key b) :
    (orderedInsertKey key p l).Pairwise fun a b => key a ≤ key b := by
  induction l with
  | nil => simp [orderedInsertKey]
  | cons q rest ih =>
    rcases List.pairwise_cons.mp h with ⟨hq, hrest⟩
    unfold orderedInsertKey
    split_ifs with hle
    · refine List.pairwise_cons.mpr ⟨?_, h⟩
      intro b hb
      rcases List.mem_cons.mp hb with rfl | hb'
      · exact hle
      · exact hle.trans (hq b hb')
    · refine List.pairwise_cons.mpr ⟨?_, ih hrest⟩
      intro b hb
      rcases (mem_orderedInsertKey key p b rest).mp hb with rfl | hb'
      · exact (not_le.mp hle).le
      · exact hq b hb'

theorem pairwise_sortByKey {α β : Type} [LinearOrder β] (key : α → β) :
    ∀ l : List α, (sortByKey key l).Pairwise fun a b => key a ≤ key b := by
  intro l
  induction l with
  | nil => simp [sortByKey]
  | cons p rest ih => exact pairwise_orderedInsertKey key p _ ih

theorem orderedInsertKey_ne_nil {α β : Type} [LinearOrder β] (key : α → β) (p : α)
    (l : List α) : orderedInsertKey key p l ≠ [] := by
  cases l with
  | nil => simp [orderedInsertKey]
  | cons q rest =>
    unfold orderedInsertKey
    split_ifs <;> simp

theorem sortByKey_ne_nil {α β : Type} [LinearOrder β] (key : α → β) (l : List α)
    (h : l ≠ []) : sortByKey key l ≠ [] := by
  cases l with
  | nil => exact absurd rfl h
  | cons p rest => exact orderedInsertKey_ne_nil key p _

/-! ## Claims C7, C9, C10 -/

/-- C7: the parser's unit conversion is exact: for every data row matched by
`line_pattern`, the captured unit converts by the table
eV→1e-6, keV→1e-3, MeV→1, GeV→1e3, TeV→1e6; in particular value `500` with
unit `keV` gives `0.5` MeV, and the row `"1.000 MeV   5.234E+01"` yields
`(Energy_MeV, dE_dx) = (1, 52.34)`. -/
theorem c7_unit_conversion :
    (∀ (cs : List Char) (v u d : String), matchLinePattern cs = some (v, u, d) →
      ∀ q : ℚ, _convert_to_mev q u = .ok (q * spec_unit_factor u)) ∧
    _convert_to_mev 500 "keV" = .ok (1 / 2) ∧
    parseDataLine "1.000 MeV   5.234E+01".toList = .ok (some (1, 5234 / 100)) := by
  refine ⟨?_, ?_, ?_⟩
  · intro cs v u d h q
    rcases matchLinePattern_unit cs v u d h with h' | h' | h' | h' | h' <;> subst h' <;> rfl
  · show Except.ok ((500 : ℚ) * (1 / 1000)) = Except.ok ((1 : ℚ) / 2)
    norm_num
  · simp +decide [parseDataLine, matchLinePattern, matchUnit, parseFloatQ, digitsVal,
      _convert_to_mev, trimChars, toLowerChars, data_asString]
    norm_num

/-- Witness for C7 on the concrete matched row `"1 MeV 2"`. -/
theorem c7_unit_conversion_witness :
    _convert_to_mev 1 "MeV" = .ok (1 * spec_unit_factor "MeV") :=
  c7_unit_conversion.1 "1 MeV 2".toList "1" "MeV" "2" rfl 1

/-- C9: whenever `parse_srim_text` returns without error, the returned table
is non-empty and sorted by energy in non-decreasing order, for every input
text. -/
theorem c9_sorted_nonempty (content : String) (t : List (ℚ × ℚ))
    (h : parse_srim_text content = .ok t) :
    t ≠ [] ∧ t.Pairwise fun a b => a.1 ≤ b.1 := by
  unfold parse_srim_text at h
  dsimp only at h
  split at h
  · exact absurd h (by simp)
  · split at h
    · exact absurd h (by simp)
    · split_ifs at h with hne
      all_goals first
        | exact Except.noConfusion h
        | (simp only [Except.ok.injEq] at h
           subst h
           refine ⟨sortByKey_ne_nil _ _ ?_, pairwise_sortByKey _ _⟩
           intro hnil
           rw [hnil] at hne
           simp at hne)

set_option maxHeartbeats 2000000 in
/-- Witness for C9: a concrete SRIM text whose rows arrive unsorted
(2 keV before 1 MeV) parses to the sorted table `[(1/500, 5), (1, 3)]`. -/
theorem c9_sorted_nonempty_witness :
    ([((1 : ℚ) / 500, (5 : ℚ)), (1, 3)] ≠ [] ∧
      List.Pairwise (fun a b : ℚ × ℚ => a.1 ≤ b.1) [((1 : ℚ) / 500, (5 : ℚ)), (1, 3)]) := by
  apply c9_sorted_nonempty "Energy Elec\n-\n2 keV 5\n1 MeV 3"
  simp +decide [parse_srim_text, splitNewlines, trimChars, isHeaderLine, isSepLine, findEndIdx,
    isEndLine, containsSub, parseRows, parseDataLine, matchLinePattern, matchUnit, parseFloatQ,
    digitsVal, _convert_to_mev, toLowerChars, sortByKey, orderedInsertKey, data_asString]
  norm_num

/-- C10: every unit string captured by the parser's data-row pattern is one
of eV, keV, MeV, GeV, TeV, so `parse_srim_text` never raises the
`Unknown energy unit` error, on any input. -/
theorem c10_no_unknown_unit :
    (∀ (cs : List Char) (v u d : String), matchLinePattern cs = some (v, u, d) →
      u = "eV" ∨ u = "keV" ∨ u = "MeV" ∨ u = "GeV" ∨ u = "TeV") ∧
    ∀ content : String, isUnknownUnitError (parse_srim_text content) = false := by
  refine ⟨matchLinePattern_unit, ?_⟩
  intro content
  unfold parse_srim_text
  dsimp only
  split
  · rfl
  · split
    · next e heq =>
      rw [← heq]
      exact isUnknownUnitError_parseRows _
    · split_ifs <;> rfl

/-- Witness for C10 on the concrete matched row `"1 MeV 2"` and a concrete
input text. -/
theorem c10_no_unknown_unit_witness :
    (("MeV" : String) = "eV" ∨ ("MeV" : String) = "keV" ∨ ("MeV" : String) = "MeV" ∨
      ("MeV" : String) = "GeV" ∨ ("MeV" : String) = "TeV") ∧
    isUnknownUnitError (parse_srim_text "Energy Elec\n-\n1 MeV 2") = false :=
  ⟨c10_no_unknown_unit.1 "1 MeV 2".toList "1" "MeV" "2" rfl,
   c10_no_unknown_unit.2 "Energy Elec\n-\n1 MeV 2"⟩
